import Mathlib

/-!
Verification of the mihub permission/rate-limit guard and multi-agent dispatch
coordinator.

The definitions below are a shallow embedding of the TypeScript sources:
* `checkPermission` embeds the Guardian tRPC `checkPermission` mutation
  (guardian router), together with its audit-log appends (`logApiCall`); the
  log append is modelled as the list of entries the call emits (the source
  appends each entry to a JSONL file and swallows file-system errors).
* `checkRateLimit` embeds `checkRateLimit` from
  `apps/api/server/orchestrator/guardian.ts` (fixed-window counter keyed by
  `agentId:windowIndex`), with its `logToGuardian` appends modelled likewise.
* `analyzeMessage` embeds the keyword router from
  `apps/api/server/orchestrator/router.ts`.
* `generateFinalResponse` embeds the response synthesizer.
* `orchestrate` embeds the orchestrator loop, with external collaborators
  (prompt building, the OpenAI call, message persistence) as oracles; an
  explicit event trace records the order of the effects (delegation save,
  rate-limit acquisition, invocation, response save) at exactly the program
  points where the source performs them.  Time (`Date.now()`) is a parameter.
-/

namespace Mihub

/-! ### Data model: endpoint catalog and permission table -/

structure Endpoint where
  id : String
  method : String
  path : String
  description : String
  risk : String
deriving DecidableEq

structure Service where
  id : String
  display_name : String
  base_url : String
  env : String
  endpoints : List Endpoint
deriving DecidableEq

structure ApiIndex where
  services : List Service
deriving DecidableEq

/-- zod enum `["read", "write"]` for the requested access mode. -/
inductive Mode where
  | read
  | write
deriving DecidableEq

def Mode.str : Mode → String
  | .read => "read"
  | .write => "write"

/-- The source's `input.mode.toUpperCase()` as used for the log `method` field. -/
def Mode.upper : Mode → String
  | .read => "READ"
  | .write => "WRITE"

structure PermissionRule where
  endpoint_id : String
  modes : List Mode
  max_risk : String
  require_confirmation : Bool
deriving DecidableEq

structure AgentPerm where
  id : String
  display_name : String
  roles : List String
  rules : List PermissionRule
deriving DecidableEq

structure UnknownEndpointPolicy where
  allow : Bool
deriving DecidableEq

structure Defaults where
  unknown_endpoint : UnknownEndpointPolicy
deriving DecidableEq

structure Permissions where
  agents : List AgentPerm
  defaults : Defaults
deriving DecidableEq

inductive Status where
  | allowed
  | denied
  | error
deriving DecidableEq

/-- One JSONL record appended by `logApiCall` (metadata-free fields of the
source's log entry object). -/
structure AuditEntry where
  timestamp : String
  agent : String
  endpoint_id : String
  method : String
  path : String
  status : Status
  reason : Option String
  risk_level : Option String
  require_confirmation : Option Bool
deriving DecidableEq

structure EndpointSummary where
  id : String
  method : String
  path : String
  description : String
  risk : String
  base_url : String
deriving DecidableEq

structure CheckResult where
  allowed : Bool
  reason : String
  require_confirmation : Bool
  endpoint : Option EndpointSummary
deriving DecidableEq

/-- The `riskLevels` array from the source. -/
def riskLevels : List String := ["low", "medium", "high"]

/-- JavaScript `Array.prototype.indexOf`: position of the first occurrence,
`-1` when absent. -/
def jsIndexOf (l : List String) (s : String) : Int :=
  match l.findIdx? (fun x => x == s) with
  | some i => (i : Int)
  | none => -1

/-- The endpoint lookup loop of `checkPermission`: first service whose
endpoint list contains the id, together with that service. -/
def findEndpoint (services : List Service) (endpointId : String) :
    Option (Endpoint × Service) :=
  services.findSome? fun svc =>
    (svc.endpoints.find? (fun e => e.id == endpointId)).map (fun ep => (ep, svc))

/-- The Guardian `checkPermission` mutation: decision plus the audit entries
it appends (in order).  `ts` stands for `new Date().toISOString()`. -/
def checkPermission (perms : Permissions) (apiIndex : ApiIndex) (ts : String)
    (agentId endpointId : String) (mode : Mode) :
    CheckResult × List AuditEntry :=
  match perms.agents.find? (fun a => a.id == agentId) with
  | none =>
    ({ allowed := false, reason := "Unknown agent",
       require_confirmation := false, endpoint := none },
     [{ timestamp := ts, agent := agentId, endpoint_id := endpointId,
        method := mode.upper, path := "", status := .denied,
        reason := some "Unknown agent", risk_level := none,
        require_confirmation := none }])
  | some agent =>
    match findEndpoint apiIndex.services endpointId with
    | none =>
      ({ allowed := perms.defaults.unknown_endpoint.allow,
         reason := "Unknown endpoint",
         require_confirmation := false, endpoint := none },
       [{ timestamp := ts, agent := agentId, endpoint_id := endpointId,
          method := mode.upper, path := "", status := .denied,
          reason := some "Unknown endpoint", risk_level := none,
          require_confirmation := none }])
    | some (endpoint, service) =>
      match agent.rules.find? (fun r => r.endpoint_id == endpointId) with
      | none =>
        ({ allowed := false,
           reason := "No permission rule found for this endpoint",
           require_confirmation := false, endpoint := none },
         [{ timestamp := ts, agent := agentId, endpoint_id := endpointId,
            method := endpoint.method, path := endpoint.path,
            status := .denied, reason := some "No permission rule found",
            risk_level := some endpoint.risk,
            require_confirmation := none }])
      | some rule =>
        if rule.modes.contains mode then
          let endpointRiskIndex := jsIndexOf riskLevels endpoint.risk
          let maxRiskIndex := jsIndexOf riskLevels rule.max_risk
          if endpointRiskIndex > maxRiskIndex then
            ({ allowed := false,
               reason := "Risk level " ++ endpoint.risk ++
                 " exceeds maximum allowed " ++ rule.max_risk,
               require_confirmation := false, endpoint := none },
             [{ timestamp := ts, agent := agentId, endpoint_id := endpointId,
                method := endpoint.method, path := endpoint.path,
                status := .denied,
                reason := some ("Risk level " ++ endpoint.risk ++
                  " exceeds max allowed " ++ rule.max_risk),
                risk_level := some endpoint.risk,
                require_confirmation := none }])
          else
            ({ allowed := true, reason := "Permission granted",
               require_confirmation := rule.require_confirmation,
               endpoint := some
                 { id := endpoint.id, method := endpoint.method,
                   path := endpoint.path, description := endpoint.description,
                   risk := endpoint.risk, base_url := service.base_url } },
             [{ timestamp := ts, agent := agentId, endpoint_id := endpointId,
                method := endpoint.method, path := endpoint.path,
                status := .allowed, reason := none,
                risk_level := some endpoint.risk,
                require_confirmation := some rule.require_confirmation }])
        else
          ({ allowed := false,
             reason := "Mode " ++ mode.str ++ " not allowed for this endpoint",
             require_confirmation := false, endpoint := none },
           [{ timestamp := ts, agent := agentId, endpoint_id := endpointId,
              method := endpoint.method, path := endpoint.path,
              status := .denied,
              reason := some ("Mode " ++ mode.str ++ " not allowed"),
              risk_level := some endpoint.risk,
              require_confirmation := none }])

/-- The spec's total order low < medium < high on risk tiers, as a rank. -/
def riskOrd (r : String) : Nat :=
  if r == "low" then 0 else if r == "medium" then 1 else 2

theorem jsIndexOf_riskLevels_eq_riskOrd (r : String) (h : r ∈ riskLevels) :
    jsIndexOf riskLevels r = (riskOrd r : Int) := by
  simp only [riskLevels, List.mem_cons, List.not_mem_nil, or_false] at h
  rcases h with h | h | h <;> subst h <;> rfl

end Mihub

namespace Mihub

/-! ### Sample catalog and permission table for witnesses -/

def epContents : Endpoint :=
  ⟨"github.repo.contents", "GET", "/repos/contents", "Read repo contents", "low"⟩

def epDeploy : Endpoint :=
  ⟨"mihub.deploy.vercel", "POST", "/deploy", "Trigger deploy", "high"⟩

def epLogs : Endpoint :=
  ⟨"logs.guardian", "GET", "/logs", "Read guardian logs", "low"⟩

def svcGithub : Service :=
  ⟨"github", "GitHub", "https://api.github.com", "prod",
   [epContents, epDeploy, epLogs]⟩

def sampleIndex : ApiIndex := ⟨[svcGithub]⟩

def ruleContents : PermissionRule :=
  ⟨"github.repo.contents", [.read], "medium", false⟩

def ruleDeploy : PermissionRule :=
  ⟨"mihub.deploy.vercel", [.read, .write], "medium", true⟩

def agentMio : AgentPerm :=
  ⟨"mio_dev", "MIO Dev", ["dev"], [ruleContents, ruleDeploy]⟩

def samplePerms : Permissions := ⟨[agentMio], ⟨⟨false⟩⟩⟩

/-! ### Rate limiter (`checkRateLimit` in orchestrator/guardian.ts) -/

/-- One value of the module-level `rateLimitCache`. -/
structure RLEntry where
  count : Nat
  resetAt : Nat
deriving DecidableEq

/-- The `rateLimitCache` record: a JavaScript object maps string keys to
entries, so it is modelled as the corresponding partial map.  The empty
object is `fun _ => none`. -/
def RLState : Type := String → Option RLEntry

def rlLookup (st : RLState) (k : String) : Option RLEntry := st k

/-- Property assignment `cache[key] = v`. -/
def rlSet (st : RLState) (k : String) (v : RLEntry) : RLState :=
  fun k' => if k' = k then some v else st k'

/-- A `logToGuardian` entry (orchestrator guardian log); the opaque
`metadata` payload is not modelled. -/
structure GuardianLogEntry where
  agent : String
  method : String
  path : String
  status : Status
  reason : Option String
deriving DecidableEq

/-- The fixed-window key `agentId:floor(now / (windowSeconds*1000))`. -/
def rlKey (agentId : String) (windowSeconds now : Nat) : String :=
  agentId ++ ":" ++ toString (now / (windowSeconds * 1000))

/-- The source's `checkRateLimit(agentId, limit, windowSeconds)` at time `now` (ms):
returns the admission flag, the updated cache, and the guardian-log entries
the call appends. -/
def checkRateLimit (st : RLState) (agentId : String)
    (limit windowSeconds now : Nat) :
    Bool × RLState × List GuardianLogEntry :=
  let key := rlKey agentId windowSeconds now
  let entry0 :=
    match rlLookup st key with
    | some e => e
    | none => { count := 0, resetAt := now + windowSeconds * 1000 }
  let entry1 :=
    if now > entry0.resetAt then
      { count := 0, resetAt := now + windowSeconds * 1000 }
    else entry0
  let entry2 : RLEntry := { count := entry1.count + 1, resetAt := entry1.resetAt }
  let st' := rlSet st key entry2
  if entry2.count > limit then
    (false, st',
     [{ agent := agentId, method := "RATE_LIMIT", path := "/mihub/orchestrator",
        status := .denied,
        reason := some ("Rate limit exceeded: " ++ toString entry2.count ++
          "/" ++ toString limit ++ " in " ++ toString windowSeconds ++ "s") }])
  else
    (true, st', [])

/-- Runs `k` consecutive `checkRateLimit` calls for the same agent at the same
time `now`, collecting the returned flags. -/
def tryAcquireN (agentId : String) (limit windowSeconds now : Nat) :
    Nat → RLState → List Bool × RLState
  | 0, st => ([], st)
  | k + 1, st =>
    let r := checkRateLimit st agentId limit windowSeconds now
    let rest := tryAcquireN agentId limit windowSeconds now k r.2.1
    (r.1 :: rest.1, rest.2)

theorem rlLookup_rlSet (st : RLState) (k k' : String) (v : RLEntry) :
    rlLookup (rlSet st k v) k' = if k' = k then some v else rlLookup st k' :=
  rfl

/-- One `checkRateLimit` call, characterised by the current counter `c` of
its window key (`c = 0` when the key is absent): the call increments the
counter, admits iff the new count stays within the limit, and logs exactly
on denial. -/
theorem checkRateLimit_at (st : RLState) (agentId : String)
    (limit W now c : Nat)
    (h : rlLookup st (rlKey agentId W now) = some ⟨c, now + W * 1000⟩ ∨
         (rlLookup st (rlKey agentId W now) = none ∧ c = 0)) :
    checkRateLimit st agentId limit W now =
      (decide (c + 1 ≤ limit),
       rlSet st (rlKey agentId W now) ⟨c + 1, now + W * 1000⟩,
       if c + 1 > limit then
         [{ agent := agentId, method := "RATE_LIMIT",
            path := "/mihub/orchestrator", status := .denied,
            reason := some ("Rate limit exceeded: " ++ toString (c + 1) ++
              "/" ++ toString limit ++ " in " ++ toString W ++ "s") }]
       else []) := by
  have hreset : ¬ now > now + W * 1000 := Nat.not_lt.mpr (Nat.le_add_right _ _)
  rcases h with h | ⟨h, hc⟩
  · simp only [checkRateLimit, h, hreset, if_false]
    by_cases hlim : c + 1 > limit
    · simp [hlim, Nat.not_le.mpr hlim]
    · simp [hlim, Nat.not_lt.mp hlim]
  · subst hc
    simp only [checkRateLimit, h, hreset, if_false]
    by_cases hlim : 0 + 1 > limit
    · simp [hlim, Nat.not_le.mpr hlim]
    · simp [hlim, Nat.not_lt.mp hlim]

/-- Iterating `checkRateLimit` at a fixed time from a state whose window key
holds count `c`: the i-th call admits iff `c + i + 1 ≤ limit`, the counter
ends at `c + k`, and no other key changes. -/
theorem tryAcquireN_spec (agentId : String) (limit W now : Nat) :
    ∀ (k c : Nat) (st : RLState),
      rlLookup st (rlKey agentId W now) = some ⟨c, now + W * 1000⟩ →
      (tryAcquireN agentId limit W now k st).1 =
        (List.range k).map (fun i => decide (c + i + 1 ≤ limit)) ∧
      rlLookup (tryAcquireN agentId limit W now k st).2 (rlKey agentId W now) =
        some ⟨c + k, now + W * 1000⟩ ∧
      ∀ k', k' ≠ rlKey agentId W now →
        rlLookup (tryAcquireN agentId limit W now k st).2 k' = rlLookup st k' := by
  intro k
  induction k with
  | zero => intro c st h; exact ⟨rfl, by simpa using h, fun _ _ => rfl⟩
  | succ k ih =>
    intro c st h
    have hstep := checkRateLimit_at st agentId limit W now c (Or.inl h)
    have hlook : rlLookup (rlSet st (rlKey agentId W now)
        ⟨c + 1, now + W * 1000⟩) (rlKey agentId W now) =
        some ⟨c + 1, now + W * 1000⟩ := by
      simp [rlLookup_rlSet]
    obtain ⟨ih1, ih2, ih3⟩ := ih (c + 1) _ hlook
    refine ⟨?_, ?_, ?_⟩
    · show (checkRateLimit st agentId limit W now).1 ::
        (tryAcquireN agentId limit W now k
          (checkRateLimit st agentId limit W now).2.1).1 = _
      rw [hstep]
      simp only [ih1, List.range_succ_eq_map, List.map_cons, List.map_map]
      refine congrArg₂ _ (decide_eq_decide.mpr (by omega)) ?_
      exact List.map_congr_left fun i _ => by
        simp only [Function.comp_apply]
        exact decide_eq_decide.mpr (by omega)
    · show rlLookup (tryAcquireN agentId limit W now k
        (checkRateLimit st agentId limit W now).2.1).2 _ = _
      rw [hstep]
      simpa [Nat.add_assoc, Nat.add_comm 1 k] using ih2
    · intro k' hk'
      show rlLookup (tryAcquireN agentId limit W now k
        (checkRateLimit st agentId limit W now).2.1).2 k' = _
      rw [hstep]
      rw [ih3 k' hk']
      simp [rlLookup_rlSet, hk']

/-- Claim C3: from an empty cache, within one fixed window the first `limit` calls
are admitted and every further call in that window is denied while the
shared counter still increments; a call whose window key differs (the window
rolled over) is admitted again. -/
theorem fixed_window_limit (agentId : String) (limit W now k now' : Nat)
    (hroll : rlKey agentId W now' ≠ rlKey agentId W now) (hlim : 1 ≤ limit) :
    (tryAcquireN agentId limit W now k (fun _ => none)).1 =
      (List.range k).map (fun i => decide (i + 1 ≤ limit)) ∧
    rlLookup (tryAcquireN agentId limit W now k (fun _ => none)).2
        (rlKey agentId W now) =
      (if k = 0 then none else some ⟨k, now + W * 1000⟩) ∧
    (checkRateLimit (tryAcquireN agentId limit W now k (fun _ => none)).2
        agentId limit W now').1 = true := by
  cases k with
  | zero =>
    refine ⟨rfl, rfl, ?_⟩
    show (checkRateLimit (fun _ => none) agentId limit W now').1 = true
    rw [checkRateLimit_at (fun _ => none) agentId limit W now' 0
      (Or.inr ⟨rfl, rfl⟩)]
    simpa using hlim
  | succ k =>
    have hstep := checkRateLimit_at (fun _ => none) agentId limit W now 0
      (Or.inr ⟨rfl, rfl⟩)
    have hlook : rlLookup (rlSet (fun _ => none) (rlKey agentId W now)
        ⟨0 + 1, now + W * 1000⟩) (rlKey agentId W now) =
        some ⟨0 + 1, now + W * 1000⟩ := by
      simp [rlLookup_rlSet]
    obtain ⟨h1, h2, h3⟩ := tryAcquireN_spec agentId limit W now k (0 + 1) _ hlook
    have hfirst : (tryAcquireN agentId limit W now (k + 1) (fun _ => none)).1 =
        (checkRateLimit (fun _ => none) agentId limit W now).1 ::
        (tryAcquireN agentId limit W now k
          (checkRateLimit (fun _ => none) agentId limit W now).2.1).1 := rfl
    have hstate : (tryAcquireN agentId limit W now (k + 1) (fun _ => none)).2 =
        (tryAcquireN agentId limit W now k
          (checkRateLimit (fun _ => none) agentId limit W now).2.1).2 := rfl
    refine ⟨?_, ?_, ?_⟩
    · rw [hfirst, hstep]
      simp only [h1, List.range_succ_eq_map, List.map_cons, List.map_map]
      refine congrArg₂ _ (decide_eq_decide.mpr (by omega)) ?_
      exact List.map_congr_left fun i _ => by
        simp only [Function.comp_apply]
        exact decide_eq_decide.mpr (by omega)
    · rw [hstate, hstep]
      simpa [Nat.add_comm 1 k] using h2
    · have hnone : rlLookup (tryAcquireN agentId limit W now k
          (rlSet (fun _ => none) (rlKey agentId W now)
            ⟨0 + 1, now + W * 1000⟩)).2 (rlKey agentId W now') = none := by
        rw [h3 (rlKey agentId W now') hroll]
        simp [rlLookup, rlLookup_rlSet, rlSet, hroll]
      rw [hstate, hstep]
      show (checkRateLimit (tryAcquireN agentId limit W now k
          (rlSet (fun _ => none) (rlKey agentId W now)
            ⟨0 + 1, now + W * 1000⟩)).2 agentId limit W now').1 = true
      rw [checkRateLimit_at _ agentId limit W now' 0 (Or.inr ⟨hnone, rfl⟩)]
      simpa using hlim

/-- Claim C3 witness: limit 3, window 60 s, four calls at t = 0 give
true, true, true, false; the counter reads 4; one call at t = 60000 (the
next window) is admitted again. -/
theorem fixed_window_limit_witness :
    (1 ≤ 3 ∧ rlKey "mio_dev" 60 60000 ≠ rlKey "mio_dev" 60 0) ∧
    (tryAcquireN "mio_dev" 3 60 0 4 (fun _ => none)).1 =
      [true, true, true, false] ∧
    rlLookup (tryAcquireN "mio_dev" 3 60 0 4 (fun _ => none)).2
      (rlKey "mio_dev" 60 0) = some ⟨4, 60000⟩ ∧
    (checkRateLimit (tryAcquireN "mio_dev" 3 60 0 4 (fun _ => none)).2
      "mio_dev" 3 60 60000).1 = true := by
  have h := fixed_window_limit "mio_dev" 3 60 0 4 60000 (by decide) (by decide)
  exact ⟨⟨by decide, by decide⟩, by rw [h.1]; rfl, by rw [h.2.1]; rfl, h.2.2⟩

/-- Claim C4 counterexample: an admitted `tryAcquire` call appends no audit entry
at all (the source logs only on denial), refuting "exactly one AuditEntry
per call regardless of outcome". -/
theorem audit_per_call_cex :
    (checkRateLimit (fun _ => none) "mio_dev" 1 60 0).1 = true ∧
    (checkRateLimit (fun _ => none) "mio_dev" 1 60 0).2.2.length = 0 :=
  ⟨rfl, rfl⟩

/-- Claim C4 amended: every `evaluate` call appends exactly one audit entry
regardless of outcome; a `tryAcquire` call appends exactly one entry when it
denies and none when it admits. -/
theorem audit_per_call_amended :
    (∀ perms apiIndex ts agentId endpointId mode,
      (checkPermission perms apiIndex ts agentId endpointId mode).2.length = 1) ∧
    (∀ st agentId limit W now,
      (checkRateLimit st agentId limit W now).2.2.length =
        if (checkRateLimit st agentId limit W now).1 then 0 else 1) := by
  constructor
  · intro perms apiIndex ts agentId endpointId mode
    simp only [checkPermission]
    repeat' split
    all_goals rfl
  · intro st agentId limit W now
    simp only [checkRateLimit]
    repeat' split
    all_goals simp_all

/-! ### Agent identifiers and the keyword router
(`apps/api/server/orchestrator/router.ts`) -/

/-- The closed union type `AgentId` of the orchestrator. -/
inductive AgentId where
  | mio_dev
  | abacus
  | zapier
  | manus_worker
deriving DecidableEq

def AgentId.str : AgentId → String
  | .mio_dev => "mio_dev"
  | .abacus => "abacus"
  | .zapier => "zapier"
  | .manus_worker => "manus_worker"

/-- JavaScript `message.toLowerCase()` (ASCII case folding; every router keyword is
ASCII). -/
def jsToLower (s : String) : String := ⟨s.data.map Char.toLower⟩

/-- JavaScript `String.prototype.startsWith`. -/
def jsStartsWith (s pre : String) : Bool := pre.data.isPrefixOf s.data

/-- JavaScript `String.prototype.includes`: contiguous-substring containment. -/
def jsIncludes (hay needle : String) : Bool := decide (needle.data <:+: hay.data)

def manusWorkerKeywords : List String :=
  ["manus", "server", "ssh", "pm2", "restart", "riavvia", "esegui",
   "execute", "comando", "command", "deploy", "git pull", "pull", "logs",
   "stato", "status", "verifica", "check", "directory", "file system",
   "processo", "process"]

def mioDevKeywords : List String :=
  ["github", "codice", "code", "commit", "repo", "repository", "branch",
   "pull request", "pr", "merge", "file", "modifica", "crea file",
   "elimina file", "build", "compilazione", "errore compilazione",
   "dependency", "dipendenza", "package.json", "npm", "yarn", "pnpm"]

def abacusKeywords : List String :=
  ["analizza", "analyze", "log", "logs", "metriche", "metrics", "errori",
   "errors", "statistiche", "statistics", "guardian", "api guardian",
   "performance", "latency", "response time", "quanti", "how many", "count",
   "conta", "dashboard", "report", "analisi", "analysis", "trend",
   "grafico", "chart"]

def zapierKeywords : List String :=
  ["automazione", "automation", "webhook", "integrazione", "integration",
   "zapier", "trigger", "action", "workflow", "notifica", "notification",
   "email", "slack", "telegram", "discord", "api call", "chiamata api",
   "schedule", "pianifica", "cron"]

/-- Kept-so-far accumulator walk behind `dedupFirst`. -/
def dedupGo (seen : List AgentId) : List AgentId → List AgentId
  | [] => []
  | a :: l => if a ∈ seen then dedupGo seen l else a :: dedupGo (a :: seen) l

/-- The source's `[...new Set(agents)]`: first-occurrence-preserving deduplication. -/
def dedupFirst (l : List AgentId) : List AgentId := dedupGo [] l

theorem mem_dedupGo {x : AgentId} :
    ∀ (seen l : List AgentId), x ∈ dedupGo seen l → x ∈ l := by
  intro seen l
  induction l generalizing seen with
  | nil => simp [dedupGo]
  | cons a l ih =>
    intro h
    simp only [dedupGo] at h
    split at h
    · exact List.mem_cons_of_mem _ (ih _ h)
    · rcases List.mem_cons.mp h with h | h
      · simp [h]
      · exact List.mem_cons_of_mem _ (ih _ h)

theorem dedupGo_not_seen {x : AgentId} :
    ∀ (seen l : List AgentId), x ∈ dedupGo seen l → x ∉ seen := by
  intro seen l
  induction l generalizing seen with
  | nil => simp [dedupGo]
  | cons a l ih =>
    intro h
    simp only [dedupGo] at h
    split at h
    · exact ih _ h
    · rcases List.mem_cons.mp h with h | h
      · subst h; assumption
      · intro hx
        exact ih _ h (List.mem_cons_of_mem _ hx)

theorem dedupGo_nodup : ∀ (seen l : List AgentId), (dedupGo seen l).Nodup := by
  intro seen l
  induction l generalizing seen with
  | nil => simp [dedupGo]
  | cons a l ih =>
    simp only [dedupGo]
    split
    · exact ih _
    · refine List.nodup_cons.mpr ⟨fun hmem => ?_, ih _⟩
      exact dedupGo_not_seen _ _ hmem (List.mem_cons_self a seen)

theorem dedupFirst_ne_nil {l : List AgentId} (h : l ≠ []) :
    dedupFirst l ≠ [] := by
  cases l with
  | nil => exact absurd rfl h
  | cons a l => simp [dedupFirst, dedupGo]

theorem mem_dedupFirst {x : AgentId} {l : List AgentId}
    (h : x ∈ dedupFirst l) : x ∈ l :=
  mem_dedupGo [] l h

theorem dedupFirst_nodup (l : List AgentId) : (dedupFirst l).Nodup :=
  dedupGo_nodup [] l

/-- The router's `analyzeMessage`: explicit agent-name prefixes first,
then keyword matches pushed in source order, the `mio_dev` fallback, and
`Set`-based deduplication. -/
def analyzeMessage (message : String) : List AgentId :=
  let messageLower := jsToLower message
  if jsStartsWith messageLower "manus," || jsStartsWith messageLower "manus " then
    [.manus_worker]
  else if jsStartsWith messageLower "gpt dev," ||
      jsStartsWith messageLower "gpt dev " ||
      jsStartsWith messageLower "gptdev," ||
      jsStartsWith messageLower "gptdev " then
    [.mio_dev]
  else if jsStartsWith messageLower "abacus," ||
      jsStartsWith messageLower "abacus " then
    [.abacus]
  else if jsStartsWith messageLower "zapier," ||
      jsStartsWith messageLower "zapier " then
    [.zapier]
  else
    let agents : List AgentId :=
      (if manusWorkerKeywords.any (fun kw => jsIncludes messageLower kw) then
        [.manus_worker] else []) ++
      (if mioDevKeywords.any (fun kw => jsIncludes messageLower kw) then
        [.mio_dev] else []) ++
      (if abacusKeywords.any (fun kw => jsIncludes messageLower kw) then
        [.abacus] else []) ++
      (if zapierKeywords.any (fun kw => jsIncludes messageLower kw) then
        [.zapier] else [])
    let agents := if agents.isEmpty then [.mio_dev] else agents
    dedupFirst agents

theorem isEmpty_fallback_ne_nil (l fb : List AgentId) (hfb : fb ≠ []) :
    (if l.isEmpty then fb else l) ≠ [] := by
  split
  · exact hfb
  · next h => simpa using h

/-- The classifier always selects at least one agent (`mio_dev` fallback). -/
theorem analyzeMessage_ne_nil (message : String) :
    analyzeMessage message ≠ [] := by
  intro h
  unfold analyzeMessage at h
  simp only [] at h
  split at h
  · exact absurd h (by simp)
  · split at h
    · exact absurd h (by simp)
    · split at h
      · exact absurd h (by simp)
      · split at h
        · exact absurd h (by simp)
        · exact dedupFirst_ne_nil (isEmpty_fallback_ne_nil _ _ (by simp)) h

/-- The selected agent list never repeats an agent. -/
theorem analyzeMessage_nodup (message : String) :
    (analyzeMessage message).Nodup := by
  unfold analyzeMessage
  simp only []
  split
  · simp
  · split
    · simp
    · split
      · simp
      · split
        · simp
        · exact dedupFirst_nodup _

/-! ### Response synthesizer (`responseGenerator.ts`) -/

/-- The orchestrator's `AgentResponse` value: per-agent outcome of one turn. -/
structure AgentResponse where
  agentId : AgentId
  content : String
  metadata : Option String
  error : Option String
deriving DecidableEq

/-- The synthesizer's `getAgentName`; the `names[agentId] || agentId` fallback is dead code for
the closed `AgentId` union. -/
def getAgentName : AgentId → String
  | .mio_dev => "MIO Dev (GitHub & Sviluppo)"
  | .abacus => "Abacus (Analisi & Metriche)"
  | .zapier => "Zapier (Automazioni)"
  | .manus_worker => "Manus Worker (Task Operativi)"

/-- JavaScript truthiness of the optional `error` field (`undefined` and the
empty string are falsy). -/
def errTruthy (r : AgentResponse) : Bool :=
  match r.error with
  | some s => !(s == "")
  | none => false

inductive OMode where
  | auto
  | manual
deriving DecidableEq

/-- The source's `generateFinalResponse(userMessage, agentResponses, mode)`. -/
def generateFinalResponse (userMessage : String)
    (agentResponses : List AgentResponse) (mode : OMode) : String :=
  if mode = .manual then
    match agentResponses with
    | [] => "Nessuna risposta dall\x27agente."
    | response :: _ =>
      if errTruthy response then
        "❌ **Errore:** " ++ response.error.getD ""
      else
        response.content
  else
    match agentResponses with
    | [] => "Nessun agente ha risposto alla richiesta."
    | [response] =>
      if errTruthy response then
        "❌ **Errore da " ++ response.agentId.str ++ ":** " ++
          response.error.getD ""
      else
        "**" ++ getAgentName response.agentId ++
          "** ha elaborato la richiesta:\n\n" ++ response.content
    | _ =>
      let header := "Ho coordinato **" ++ toString agentResponses.length ++
        " agenti** per elaborare la tua richiesta:\n\n"
      let body := agentResponses.foldl (fun acc response =>
        acc ++
          (if errTruthy response then
            "### ❌ " ++ getAgentName response.agentId ++ "\n\n" ++
              "Errore: " ++ response.error.getD "" ++ "\n\n"
          else
            "### ✅ " ++ getAgentName response.agentId ++ "\n\n" ++
              response.content ++ "\n\n") ++
          "---\n\n") header
      let successfulAgents := agentResponses.filter (fun r => !errTruthy r)
      let failedAgents := agentResponses.filter (fun r => errTruthy r)
      body ++ "## 📊 Riepilogo\n\n" ++
        ("- ✅ Agenti completati: " ++ toString successfulAgents.length ++ "\n") ++
        (if failedAgents.length > 0 then
          "- ❌ Agenti con errori: " ++ toString failedAgents.length ++ "\n"
        else "")

/-- The claim's per-agent section of the multi-agent synthesis, as spec-side
vocabulary: a success/failure-tagged block of display name plus content or
error, each block closed by a separator. -/
def synthSection (r : AgentResponse) : String :=
  (if errTruthy r then
    "### ❌ " ++ getAgentName r.agentId ++ "\n\n" ++
      "Errore: " ++ r.error.getD "" ++ "\n\n"
  else
    "### ✅ " ++ getAgentName r.agentId ++ "\n\n" ++
      r.content ++ "\n\n") ++ "---\n\n"

/-- The claim's summary block: succeeded vs failed counts. -/
def synthSummary (rs : List AgentResponse) : String :=
  "## 📊 Riepilogo\n\n" ++
    ("- ✅ Agenti completati: " ++
      toString (rs.filter (fun r => !errTruthy r)).length ++ "\n") ++
    (if (rs.filter (fun r => errTruthy r)).length > 0 then
      "- ❌ Agenti con errori: " ++
        toString (rs.filter (fun r => errTruthy r)).length ++ "\n"
    else "")

theorem foldl_append_eq_join (g : AgentResponse → String) (sep : String) :
    ∀ (l : List AgentResponse) (init : String),
      l.foldl (fun acc x => acc ++ g x ++ sep) init =
        init ++ String.join (l.map (fun x => g x ++ sep)) := by
  intro l
  induction l with
  | nil => intro init; simp [String.join]
  | cons x xs ih =>
    intro init
    show xs.foldl (fun acc x => acc ++ g x ++ sep) (init ++ g x ++ sep) = _
    rw [ih]
    apply String.ext
    simp [String.data_append, String.data_join]

/-! ### Orchestrator (`orchestrator/index.ts`, `agents/base.ts`)

External collaborators are oracles in `Env`: `invoke` stands for the OpenAI
chat call (plus the per-agent action stubs, which all return null),
`mock` for `getMockResponse` (taken when `OPENAI_API_KEY` is absent),
`promptFn` for `buildPrompt`.  Message persistence (`saveMessage`) is
modelled as an append to `msgs`; the event trace records each effect at the
program point where the source awaits it. -/

structure AgentCallResult where
  content : String
  metadata : Option String
deriving DecidableEq

inductive Event where
  | delegationSaved (a : AgentId)
  | rateAcquired (a : AgentId) (ok : Bool)
  | invoked (a : AgentId)
  | responseSaved (a : AgentId)
deriving DecidableEq

def Event.agentOf : Event → AgentId
  | .delegationSaved a => a
  | .rateAcquired a _ => a
  | .invoked a => a
  | .responseSaved a => a

structure SavedMessage where
  conversationId : String
  sender : String
  content : String
  messageType : String
  recipients : List String
  metadata : Option String
deriving DecidableEq

structure Env where
  hasKey : Bool
  invoke : AgentId → Except String AgentCallResult
  mock : AgentId → AgentCallResult
  promptFn : AgentId → String
  now : Nat

/-- The source's `callAgent(agentId, prompt)`: rate-limit gate (limit 10, window 60 s),
then the mock shortcut or the OpenAI call; failures are logged to the
guardian and rethrown (modelled as `Except.error`). -/
def callAgent (env : Env) (a : AgentId) (rl : RLState) :
    Except String AgentCallResult × RLState × List GuardianLogEntry ×
      List Event :=
  match checkRateLimit rl a.str 10 60 env.now with
  | (true, rl', logs1) =>
    if env.hasKey then
      match env.invoke a with
      | .ok res =>
        (.ok res, rl',
         logs1 ++ [⟨a.str, "POST", "/openai/chat/completions", .allowed,
           none⟩],
         [.rateAcquired a true, .invoked a])
      | .error e =>
        (.error e, rl',
         logs1 ++ [⟨a.str, "POST", "/openai/chat/completions", .error,
           some e⟩],
         [.rateAcquired a true, .invoked a])
    else
      (.ok (env.mock a), rl', logs1, [.rateAcquired a true])
  | (false, rl', logs1) =>
    (.error "Rate limit exceeded for agent", rl',
     logs1 ++ [⟨a.str, "POST", "/openai/chat/completions", .error,
       some "Rate limit exceeded for agent"⟩],
     [.rateAcquired a false])

structure LoopState where
  responses : List AgentResponse
  rl : RLState
  glog : List GuardianLogEntry
  msgs : List SavedMessage
  trace : List Event

/-- The error outcome's placeholder content string. -/
def errContent (a : AgentId) : String :=
  "Errore durante l\x27esecuzione dell\x27agente " ++ a.str

/-- One iteration of the per-agent loop of `orchestrate`: build the prompt,
save the delegation message, call the agent, and on success save the
response message — any failure is captured into an error outcome. -/
def stepAgent (env : Env) (message conversationId : String) (s : LoopState)
    (a : AgentId) : LoopState :=
  let prompt := env.promptFn a
  let msgs1 := s.msgs ++ [⟨conversationId, "mio", prompt, "text", [a.str],
    some message⟩]
  let trace1 := s.trace ++ [.delegationSaved a]
  match callAgent env a s.rl with
  | (.ok res, rl', logs, evs) =>
    { responses := s.responses ++ [⟨a, res.content, res.metadata, none⟩],
      rl := rl', glog := s.glog ++ logs,
      msgs := msgs1 ++ [⟨conversationId, a.str, res.content, "text",
        ["mio"], res.metadata⟩],
      trace := trace1 ++ evs ++ [.responseSaved a] }
  | (.error e, rl', logs, evs) =>
    { responses := s.responses ++ [⟨a, errContent a, none, some e⟩],
      rl := rl', glog := s.glog ++ logs, msgs := msgs1,
      trace := trace1 ++ evs }

def processAgents (env : Env) (message conversationId : String) :
    List AgentId → LoopState → LoopState
  | [], s => s
  | a :: l, s =>
    processAgents env message conversationId l
      (stepAgent env message conversationId s a)

structure OrchRequest where
  message : String
  userId : String
  targetAgent : Option AgentId
  mode : OMode

structure OrchOut where
  success : Bool
  message : String
  agentsUsed : List AgentId
  conversationId : String
  error : Option String
  responses : List AgentResponse
  rl : RLState
  glog : List GuardianLogEntry
  msgs : List SavedMessage
  trace : List Event

/-- Step 1 of `orchestrate`: the explicit target in manual mode (a supplied
`targetAgent` is truthy), otherwise the keyword classifier. -/
def selectAgents (mode : OMode) (targetAgent : Option AgentId)
    (message : String) : List AgentId :=
  match mode, targetAgent with
  | .manual, some t => [t]
  | _, _ => analyzeMessage message

/-- The source's `orchestrate(request)`: agent selection, the per-agent loop, response
synthesis, and the final guardian turn log.  The per-agent loop recovers
every agent failure locally, so the model's turn always succeeds (the
source's top-level catch fires only when a shared-setup collaborator
throws). -/
def orchestrate (env : Env) (req : OrchRequest) (rl0 : RLState) : OrchOut :=
  let conversationId := "conv_" ++ req.userId ++ "_" ++ toString env.now
  let agentsToUse := selectAgents req.mode req.targetAgent req.message
  let s := processAgents env req.message conversationId agentsToUse
    ⟨[], rl0, [], [], []⟩
  let finalResponse := generateFinalResponse req.message s.responses req.mode
  { success := true, message := finalResponse, agentsUsed := agentsToUse,
    conversationId := conversationId, error := none,
    responses := s.responses, rl := s.rl,
    glog := s.glog ++ [⟨"orchestrator", "POST", "/mihub/orchestrator",
      .allowed, none⟩],
    msgs := s.msgs, trace := s.trace }

end Mihub

namespace Mihub

/-- Claim C1: a known agent with no rule for a known endpoint is denied with the
no-rule reason — default-deny. -/
theorem no_rule_default_deny
    (perms : Permissions) (apiIndex : ApiIndex) (ts agentId endpointId : String)
    (mode : Mode) (agent : AgentPerm) (ep : Endpoint) (svc : Service)
    (hagent : perms.agents.find? (fun a => a.id == agentId) = some agent)
    (hep : findEndpoint apiIndex.services endpointId = some (ep, svc))
    (hrule : agent.rules.find? (fun r => r.endpoint_id == endpointId) = none) :
    (checkPermission perms apiIndex ts agentId endpointId mode).1 =
      { allowed := false,
        reason := "No permission rule found for this endpoint",
        require_confirmation := false, endpoint := none } ∧
    (checkPermission perms apiIndex ts agentId endpointId mode).2 =
      [{ timestamp := ts, agent := agentId, endpoint_id := endpointId,
         method := ep.method, path := ep.path, status := .denied,
         reason := some "No permission rule found",
         risk_level := some ep.risk, require_confirmation := none }] := by
  simp [checkPermission, hagent, hep, hrule]

/-- Claim C1 witness: `mio_dev` is in the table, `logs.guardian` is in the catalog,
no rule binds them — the evaluation denies with the no-rule reason. -/
theorem no_rule_default_deny_witness :
    (checkPermission samplePerms sampleIndex "t0" "mio_dev" "logs.guardian"
        Mode.read).1 =
      { allowed := false,
        reason := "No permission rule found for this endpoint",
        require_confirmation := false, endpoint := none } :=
  (no_rule_default_deny samplePerms sampleIndex "t0" "mio_dev" "logs.guardian"
    Mode.read agentMio epLogs svcGithub (by rfl) (by rfl) (by rfl)).1

/-- Claim C2: with a matching rule whose modes contain the requested mode, the
decision is governed exactly by the risk comparison under low < medium < high:
deny (with both tiers in the reason) when the endpoint's tier exceeds the
rule's `max_risk`, allow otherwise, the allow result carrying the rule's
`require_confirmation` and the endpoint summary. -/
theorem risk_gate_decides
    (perms : Permissions) (apiIndex : ApiIndex) (ts agentId endpointId : String)
    (mode : Mode) (agent : AgentPerm) (ep : Endpoint) (svc : Service)
    (rule : PermissionRule)
    (hagent : perms.agents.find? (fun a => a.id == agentId) = some agent)
    (hep : findEndpoint apiIndex.services endpointId = some (ep, svc))
    (hrule : agent.rules.find? (fun r => r.endpoint_id == endpointId) = some rule)
    (hmode : rule.modes.contains mode = true)
    (hr1 : ep.risk ∈ riskLevels) (hr2 : rule.max_risk ∈ riskLevels) :
    (riskOrd rule.max_risk < riskOrd ep.risk →
      (checkPermission perms apiIndex ts agentId endpointId mode).1 =
        { allowed := false,
          reason := "Risk level " ++ ep.risk ++ " exceeds maximum allowed " ++
            rule.max_risk,
          require_confirmation := false, endpoint := none }) ∧
    (riskOrd ep.risk ≤ riskOrd rule.max_risk →
      (checkPermission perms apiIndex ts agentId endpointId mode).1 =
        { allowed := true, reason := "Permission granted",
          require_confirmation := rule.require_confirmation,
          endpoint := some
            { id := ep.id, method := ep.method, path := ep.path,
              description := ep.description, risk := ep.risk,
              base_url := svc.base_url } }) := by
  have e1 := jsIndexOf_riskLevels_eq_riskOrd ep.risk hr1
  have e2 := jsIndexOf_riskLevels_eq_riskOrd rule.max_risk hr2
  have hmode' : mode ∈ rule.modes := by simpa using hmode
  constructor
  · intro hgt
    have hgt' : jsIndexOf riskLevels rule.max_risk < jsIndexOf riskLevels ep.risk := by
      rw [e1, e2]; exact_mod_cast hgt
    simp [checkPermission, hagent, hep, hrule, hmode', hgt']
  · intro hle
    have hle' : ¬ jsIndexOf riskLevels rule.max_risk < jsIndexOf riskLevels ep.risk := by
      rw [e1, e2]; exact_mod_cast Nat.not_lt.mpr hle
    simp [checkPermission, hagent, hep, hrule, hmode', hle']

/-- Claim C2 witness: `mio_dev` reading `github.repo.contents` (risk low ≤ medium)
is allowed with the rule's confirmation flag and the endpoint summary;
`mio_dev` writing `mihub.deploy.vercel` (risk high > medium) is denied with
both tiers in the reason. -/
theorem risk_gate_decides_witness :
    (checkPermission samplePerms sampleIndex "t0" "mio_dev"
        "github.repo.contents" Mode.read).1 =
      { allowed := true, reason := "Permission granted",
        require_confirmation := false,
        endpoint := some
          { id := "github.repo.contents", method := "GET",
            path := "/repos/contents", description := "Read repo contents",
            risk := "low", base_url := "https://api.github.com" } } ∧
    (checkPermission samplePerms sampleIndex "t0" "mio_dev"
        "mihub.deploy.vercel" Mode.write).1 =
      { allowed := false,
        reason := "Risk level high exceeds maximum allowed medium",
        require_confirmation := false, endpoint := none } :=
  ⟨(risk_gate_decides samplePerms sampleIndex "t0" "mio_dev"
      "github.repo.contents" Mode.read agentMio epContents svcGithub
      ruleContents (by rfl) (by rfl) (by rfl) (by rfl) (by decide)
      (by decide)).2 (by decide),
   (risk_gate_decides samplePerms sampleIndex "t0" "mio_dev"
      "mihub.deploy.vercel" Mode.write agentMio epDeploy svcGithub
      ruleDeploy (by rfl) (by rfl) (by rfl) (by rfl) (by decide)
      (by decide)).1 (by decide)⟩

/-- Claim C8: a known agent against an endpoint id absent from the catalog: the
decision equals `defaults.unknown_endpoint.allow`, the reason is the
canonical unknown-endpoint string, confirmation is never required, and the
evaluation still appends one audit entry. -/
theorem unknown_endpoint_follows_default
    (perms : Permissions) (apiIndex : ApiIndex) (ts agentId endpointId : String)
    (mode : Mode) (agent : AgentPerm)
    (hagent : perms.agents.find? (fun a => a.id == agentId) = some agent)
    (hep : findEndpoint apiIndex.services endpointId = none) :
    (checkPermission perms apiIndex ts agentId endpointId mode).1 =
      { allowed := perms.defaults.unknown_endpoint.allow,
        reason := "Unknown endpoint",
        require_confirmation := false, endpoint := none } ∧
    (checkPermission perms apiIndex ts agentId endpointId mode).2 =
      [{ timestamp := ts, agent := agentId, endpoint_id := endpointId,
         method := mode.upper, path := "", status := .denied,
         reason := some "Unknown endpoint", risk_level := none,
         require_confirmation := none }] := by
  simp [checkPermission, hagent, hep]

/-- Claim C8 witness: `mio_dev` against the absent id `no.such.endpoint` follows
the default (deny here), reason "Unknown endpoint", no confirmation, one
audit entry appended. -/
theorem unknown_endpoint_follows_default_witness :
    (checkPermission samplePerms sampleIndex "t0" "mio_dev"
        "no.such.endpoint" Mode.read).1 =
      { allowed := false, reason := "Unknown endpoint",
        require_confirmation := false, endpoint := none } ∧
    (checkPermission samplePerms sampleIndex "t0" "mio_dev"
        "no.such.endpoint" Mode.read).2.length = 1 := by
  have h := unknown_endpoint_follows_default samplePerms sampleIndex "t0"
    "mio_dev" "no.such.endpoint" Mode.read agentMio (by rfl) (by rfl)
  exact ⟨h.1, by rw [h.2]; rfl⟩

/-- Claim C9: the synthesizer maps the outcome set to the final text by case —
manual mode returns the first outcome's content verbatim or a formatted
error string (never both); auto mode with zero outcomes returns the fixed
no-agent message; auto mode with one outcome prefixes the content with the
display name (or an "Errore da <agent>" prefix instead of content); auto
mode with several outcomes concatenates one tagged section per agent in
order followed by the succeeded/failed summary. -/
theorem synthesizer_cases (m : String) (rs : List AgentResponse) :
    (∀ r rest, rs = r :: rest →
      generateFinalResponse m rs .manual =
        (if errTruthy r then "❌ **Errore:** " ++ r.error.getD ""
         else r.content)) ∧
    (rs = [] →
      generateFinalResponse m rs .auto =
        "Nessun agente ha risposto alla richiesta.") ∧
    (∀ r, rs = [r] →
      generateFinalResponse m rs .auto =
        (if errTruthy r then
          "❌ **Errore da " ++ r.agentId.str ++ ":** " ++ r.error.getD ""
        else
          "**" ++ getAgentName r.agentId ++
            "** ha elaborato la richiesta:\n\n" ++ r.content)) ∧
    (2 ≤ rs.length →
      generateFinalResponse m rs .auto =
        "Ho coordinato **" ++ toString rs.length ++
          " agenti** per elaborare la tua richiesta:\n\n" ++
          String.join (rs.map synthSection) ++ synthSummary rs) := by
  refine ⟨?_, ?_, ?_, ?_⟩
  · intro r rest h
    subst h
    simp [generateFinalResponse]
  · intro h
    subst h
    rfl
  · intro r h
    subst h
    simp [generateFinalResponse]
  · intro h
    match rs, h with
    | r1 :: r2 :: rest, _ =>
      show ((r1 :: r2 :: rest).foldl
          (fun acc response => acc ++ (if errTruthy response then
            "### ❌ " ++ getAgentName response.agentId ++ "\n\n" ++
              "Errore: " ++ response.error.getD "" ++ "\n\n"
          else
            "### ✅ " ++ getAgentName response.agentId ++ "\n\n" ++
              response.content ++ "\n\n") ++ "---\n\n")
          ("Ho coordinato **" ++ toString (r1 :: r2 :: rest).length ++
            " agenti** per elaborare la tua richiesta:\n\n")) ++
        "## 📊 Riepilogo\n\n" ++
        ("- ✅ Agenti completati: " ++
          toString ((r1 :: r2 :: rest).filter (fun r => !errTruthy r)).length ++
          "\n") ++
        (if ((r1 :: r2 :: rest).filter (fun r => errTruthy r)).length > 0 then
          "- ❌ Agenti con errori: " ++
            toString ((r1 :: r2 :: rest).filter (fun r => errTruthy r)).length ++
            "\n"
        else "") = _
      rw [foldl_append_eq_join]
      apply String.ext
      simp only [synthSummary, synthSection, String.data_append,
        String.data_join, List.map_map, List.append_assoc, Function.comp_def]

def respOkSample : AgentResponse := ⟨.mio_dev, "done", none, none⟩

def respErrSample : AgentResponse := ⟨.abacus, "stub", none, some "boom"⟩

/-- Claim C9 witness: the four synthesizer cases at concrete outcomes — manual
verbatim content, auto with zero outcomes, auto single-error prefix, and
auto multi-agent sections plus summary. -/
theorem synthesizer_cases_witness :
    generateFinalResponse "q" [respOkSample] .manual = "done" ∧
    generateFinalResponse "q" [] .auto =
      "Nessun agente ha risposto alla richiesta." ∧
    generateFinalResponse "q" [respErrSample] .auto =
      "❌ **Errore da abacus:** boom" ∧
    generateFinalResponse "q" [respOkSample, respErrSample] .auto =
      "Ho coordinato **" ++ toString ([respOkSample, respErrSample].length) ++
        " agenti** per elaborare la tua richiesta:\n\n" ++
        String.join ([respOkSample, respErrSample].map synthSection) ++
        synthSummary [respOkSample, respErrSample] := by
  refine ⟨?_, ?_, ?_, ?_⟩
  · rw [(synthesizer_cases "q" [respOkSample]).1 respOkSample [] rfl]
    rfl
  · exact (synthesizer_cases "q" []).2.1 rfl
  · rw [(synthesizer_cases "q" [respErrSample]).2.2.1 respErrSample rfl]
    rfl
  · exact (synthesizer_cases "q" [respOkSample, respErrSample]).2.2.2
      (by decide)

/-! ### Orchestrator loop lemmas -/

theorem AgentId.str_inj {a b : AgentId} (h : a.str = b.str) : a = b := by
  cases a <;> cases b <;> first | rfl | exact absurd h (by decide)

theorem rlKey_str_inj {a b : AgentId} (W now : Nat)
    (h : rlKey a.str W now = rlKey b.str W now) : a = b := by
  apply AgentId.str_inj
  have hd := congrArg String.data h
  simp only [rlKey, String.data_append] at hd
  exact String.ext (List.append_cancel_right (List.append_cancel_right hd))

theorem selectAgents_nodup (mode : OMode) (targetAgent : Option AgentId)
    (message : String) : (selectAgents mode targetAgent message).Nodup := by
  unfold selectAgents
  split
  · simp
  · exact analyzeMessage_nodup _

theorem selectAgents_ne_nil (mode : OMode) (targetAgent : Option AgentId)
    (message : String) : selectAgents mode targetAgent message ≠ [] := by
  unfold selectAgents
  split
  · simp
  · exact analyzeMessage_ne_nil _

/-- The per-agent outcome of a step whose rate-limit key is fresh (counter
starts at 0, so the limit of 10 admits the call): determined by the
invocation oracle alone. -/
def outcomeOf (env : Env) (b : AgentId) : AgentResponse :=
  match env.invoke b with
  | .ok res => ⟨b, res.content, res.metadata, none⟩
  | .error e => ⟨b, errContent b, none, some e⟩

theorem stepAgent_fresh (env : Env) (msg conv : String) (s : LoopState)
    (a : AgentId) (hkey : env.hasKey = true)
    (hfresh : rlLookup s.rl (rlKey a.str 60 env.now) = none) :
    (stepAgent env msg conv s a).responses = s.responses ++ [outcomeOf env a] ∧
    (stepAgent env msg conv s a).rl =
      rlSet s.rl (rlKey a.str 60 env.now) ⟨1, env.now + 60 * 1000⟩ := by
  have hrate := checkRateLimit_at s.rl a.str 10 60 env.now 0
    (Or.inr ⟨hfresh, rfl⟩)
  cases hinv : env.invoke a with
  | ok res =>
    constructor <;>
      simp [stepAgent, callAgent, hrate, hkey, hinv, outcomeOf]
  | error e =>
    constructor <;>
      simp [stepAgent, callAgent, hrate, hkey, hinv, outcomeOf]

theorem processAgents_responses_fresh (env : Env) (msg conv : String)
    (hkey : env.hasKey = true) :
    ∀ (l : List AgentId) (s : LoopState), l.Nodup →
      (∀ b ∈ l, rlLookup s.rl (rlKey b.str 60 env.now) = none) →
      (processAgents env msg conv l s).responses =
        s.responses ++ l.map (outcomeOf env) := by
  intro l
  induction l with
  | nil => intro s _ _; simp [processAgents]
  | cons a l ih =>
    intro s hnd hfresh
    have hstep := stepAgent_fresh env msg conv s a hkey
      (hfresh a (List.mem_cons_self a l))
    have hfresh' : ∀ b ∈ l,
        rlLookup (stepAgent env msg conv s a).rl
          (rlKey b.str 60 env.now) = none := by
      intro b hb
      rw [hstep.2, rlLookup_rlSet]
      have hne : b ≠ a := fun hba => by
        subst hba
        exact (List.nodup_cons.mp hnd).1 hb
      rw [if_neg (fun hk => hne (rlKey_str_inj 60 env.now hk))]
      exact hfresh b (List.mem_cons_of_mem a hb)
    show (processAgents env msg conv l (stepAgent env msg conv s a)).responses = _
    rw [ih _ (List.nodup_cons.mp hnd).2 hfresh', hstep.1]
    simp

/-- Claim C5: when one selected agent's invocation throws and every other
invocation succeeds, the turn still succeeds and produces one outcome per
selected agent in order — the failing agent's outcome carries the error,
every other agent's outcome carries its content. -/
theorem dispatch_isolation (env : Env) (req : OrchRequest) (a : AgentId)
    (e : String) (f : AgentId → AgentCallResult)
    (hkey : env.hasKey = true)
    (ha : a ∈ (orchestrate env req (fun _ => none)).agentsUsed)
    (herr : env.invoke a = .error e)
    (hok : ∀ b, b ≠ a → env.invoke b = .ok (f b)) :
    (orchestrate env req (fun _ => none)).success = true ∧
    (orchestrate env req (fun _ => none)).responses =
      (orchestrate env req (fun _ => none)).agentsUsed.map (fun b =>
        if b = a then ⟨b, errContent b, none, some e⟩
        else ⟨b, (f b).content, (f b).metadata, none⟩) := by
  refine ⟨rfl, ?_⟩
  show (processAgents env req.message
      ("conv_" ++ req.userId ++ "_" ++ toString env.now)
      (selectAgents req.mode req.targetAgent req.message)
      ⟨[], fun _ => none, [], [], []⟩).responses = _
  rw [processAgents_responses_fresh env req.message
    ("conv_" ++ req.userId ++ "_" ++ toString env.now) hkey
    (selectAgents req.mode req.targetAgent req.message)
    ⟨[], fun _ => none, [], [], []⟩
    (selectAgents_nodup _ _ _) (fun _ _ => rfl)]
  simp only [List.nil_append]
  refine List.map_congr_left fun b _ => ?_
  by_cases hb : b = a
  · subst hb
    simp [outcomeOf, herr]
  · simp [outcomeOf, hok b hb, hb]

/-- A concrete environment: `mio_dev`'s invocation throws `boom`, every
other invocation returns content `ok`. -/
def envS : Env :=
  ⟨true,
   fun b => if b = .mio_dev then .error "boom" else .ok ⟨"ok", none⟩,
   fun _ => ⟨"mock", none⟩,
   fun _ => "prompt",
   0⟩

/-- An auto-mode request whose keywords select
`[manus_worker, mio_dev, abacus]`. -/
def reqS : OrchRequest := ⟨"server github log", "u1", none, .auto⟩

/-- Claim C5 witness: three selected agents, the second one's invocation throws —
the turn succeeds with one outcome per agent, the second errored, the
others carrying content. -/
theorem dispatch_isolation_witness :
    (orchestrate envS reqS (fun _ => none)).agentsUsed =
      [.manus_worker, .mio_dev, .abacus] ∧
    (orchestrate envS reqS (fun _ => none)).success = true ∧
    (orchestrate envS reqS (fun _ => none)).responses =
      (orchestrate envS reqS (fun _ => none)).agentsUsed.map (fun b =>
        if b = .mio_dev then ⟨b, errContent b, none, some "boom"⟩
        else ⟨b, "ok", none, none⟩) := by
  have h := dispatch_isolation envS reqS .mio_dev "boom"
    (fun _ => ⟨"ok", none⟩) rfl (by decide) rfl
    (by intro b hb; cases b <;> first | exact absurd rfl hb | rfl)
  exact ⟨by decide, h.1, h.2⟩

/-- The C7 outcome invariant: an outcome either carries an error message
with only the fixed placeholder text as content (no usable content), or
carries no error and its content is exactly what the agent invocation
(or the mock, without an API key) returned. -/
def outcomeInv (env : Env) (o : AgentResponse) : Prop :=
  (∃ e, o.error = some e ∧ o.content = errContent o.agentId) ∨
  (o.error = none ∧
    ((env.hasKey = true ∧ ∃ res, env.invoke o.agentId = .ok res ∧
        o.content = res.content) ∨
     (env.hasKey = false ∧ o.content = (env.mock o.agentId).content)))

theorem stepAgent_responses_shape (env : Env) (msg conv : String)
    (s : LoopState) (a : AgentId) :
    ∃ o : AgentResponse,
      (stepAgent env msg conv s a).responses = s.responses ++ [o] ∧
      o.agentId = a ∧ outcomeInv env o := by
  rcases hrate : checkRateLimit s.rl a.str 10 60 env.now with ⟨ok, rl', logs1⟩
  cases ok with
  | false =>
    refine ⟨⟨a, errContent a, none, some "Rate limit exceeded for agent"⟩,
      ?_, rfl, Or.inl ⟨_, rfl, rfl⟩⟩
    simp [stepAgent, callAgent, hrate]
  | true =>
    cases hkey : env.hasKey with
    | false =>
      refine ⟨⟨a, (env.mock a).content, (env.mock a).metadata, none⟩,
        ?_, rfl, Or.inr ⟨rfl, Or.inr ⟨hkey, rfl⟩⟩⟩
      simp [stepAgent, callAgent, hrate, hkey]
    | true =>
      cases hinv : env.invoke a with
      | ok res =>
        refine ⟨⟨a, res.content, res.metadata, none⟩, ?_, rfl,
          Or.inr ⟨rfl, Or.inl ⟨hkey, res, hinv, rfl⟩⟩⟩
        simp [stepAgent, callAgent, hrate, hkey, hinv]
      | error e =>
        refine ⟨⟨a, errContent a, none, some e⟩, ?_, rfl,
          Or.inl ⟨e, rfl, rfl⟩⟩
        simp [stepAgent, callAgent, hrate, hkey, hinv]

theorem processAgents_outcomeInv (env : Env) (msg conv : String) :
    ∀ (l : List AgentId) (s : LoopState),
      (∀ o ∈ s.responses, outcomeInv env o) →
      ∀ o ∈ (processAgents env msg conv l s).responses, outcomeInv env o := by
  intro l
  induction l with
  | nil => intro s hs; exact hs
  | cons a l ih =>
    intro s hs
    show ∀ o ∈ (processAgents env msg conv l
      (stepAgent env msg conv s a)).responses, outcomeInv env o
    apply ih
    intro o' ho'
    obtain ⟨o, heq, hid, hprop⟩ := stepAgent_responses_shape env msg conv s a
    rw [heq] at ho'
    rcases List.mem_append.mp ho' with h | h
    · exact hs o' h
    · rwa [List.mem_singleton.mp h]

/-- Claim C7: every outcome of a dispatch turn satisfies content XOR error — an
error outcome carries an error message and only the fixed placeholder as
content, a successful outcome carries the invocation's content and no
error. -/
theorem outcome_content_xor_error (env : Env) (req : OrchRequest)
    (rl0 : RLState) :
    ∀ o ∈ (orchestrate env req rl0).responses, outcomeInv env o := by
  intro o ho
  exact processAgents_outcomeInv env req.message
    ("conv_" ++ req.userId ++ "_" ++ toString env.now)
    (selectAgents req.mode req.targetAgent req.message)
    ⟨[], rl0, [], [], []⟩ (by simp) o ho

/-- Claim C7 witness: the errored `mio_dev` outcome of the concrete turn is in the
outcome set and satisfies the invariant. -/
theorem outcome_content_xor_error_witness :
    (⟨.mio_dev, errContent .mio_dev, none, some "boom"⟩ : AgentResponse) ∈
      (orchestrate envS reqS (fun _ => none)).responses ∧
    outcomeInv envS ⟨.mio_dev, errContent .mio_dev, none, some "boom"⟩ :=
  ⟨by decide,
   outcome_content_xor_error envS reqS (fun _ => none) _ (by decide)⟩

/-! ### Per-agent event ordering (C6) -/

def firstIdxOf (tr : List Event) (ev : Event) : Option Nat :=
  tr.findIdx? (fun x => decide (x = ev))

/-- Tests whether `e1` first occurs strictly before `e2` in the trace (false when either
is absent). -/
def eventBefore (tr : List Event) (e1 e2 : Event) : Bool :=
  match firstIdxOf tr e1, firstIdxOf tr e2 with
  | some i, some j => decide (i < j)
  | _, _ => false

theorem stepAgent_trace_cases (env : Env) (msg conv : String) (s : LoopState)
    (a : AgentId) (hkey : env.hasKey = true) :
    ∃ ok succ : Bool,
      (stepAgent env msg conv s a).trace = s.trace ++
        ([.delegationSaved a, .rateAcquired a ok] ++
         (if ok then [.invoked a] else []) ++
         (if succ then [.responseSaved a] else [])) ∧
      (ok = false →
        (stepAgent env msg conv s a).responses = s.responses ++
          [⟨a, errContent a, none, some "Rate limit exceeded for agent"⟩]) := by
  rcases hrate : checkRateLimit s.rl a.str 10 60 env.now with ⟨ok, rl', logs1⟩
  cases ok with
  | false =>
    refine ⟨false, false, ?_, fun _ => ?_⟩ <;>
      simp [stepAgent, callAgent, hrate]
  | true =>
    cases hinv : env.invoke a with
    | ok res =>
      refine ⟨true, true, ?_, fun h => nomatch h⟩
      simp [stepAgent, callAgent, hrate, hkey, hinv]
    | error e =>
      refine ⟨true, false, ?_, fun h => nomatch h⟩
      simp [stepAgent, callAgent, hrate, hkey, hinv]

theorem stepAgent_trace_append (env : Env) (msg conv : String) (s : LoopState)
    (a : AgentId) :
    ∃ evs : List Event, (stepAgent env msg conv s a).trace = s.trace ++ evs ∧
      ∀ ev ∈ evs, ev.agentOf = a := by
  rcases hrate : checkRateLimit s.rl a.str 10 60 env.now with ⟨ok, rl', logs1⟩
  cases ok with
  | false =>
    refine ⟨[.delegationSaved a, .rateAcquired a false], ?_, ?_⟩
    · simp [stepAgent, callAgent, hrate]
    · intro ev hev
      simp only [List.mem_cons, List.not_mem_nil, or_false] at hev
      rcases hev with rfl | rfl <;> rfl
  | true =>
    cases hkey : env.hasKey with
    | false =>
      refine ⟨[.delegationSaved a, .rateAcquired a true, .responseSaved a],
        ?_, ?_⟩
      · simp [stepAgent, callAgent, hrate, hkey]
      · intro ev hev
        simp only [List.mem_cons, List.not_mem_nil, or_false] at hev
        rcases hev with rfl | rfl | rfl <;> rfl
    | true =>
      cases hinv : env.invoke a with
      | ok res =>
        refine ⟨[.delegationSaved a, .rateAcquired a true, .invoked a,
          .responseSaved a], ?_, ?_⟩
        · simp [stepAgent, callAgent, hrate, hkey, hinv]
        · intro ev hev
          simp only [List.mem_cons, List.not_mem_nil, or_false] at hev
          rcases hev with rfl | rfl | rfl | rfl <;> rfl
      | error e =>
        refine ⟨[.delegationSaved a, .rateAcquired a true, .invoked a],
          ?_, ?_⟩
        · simp [stepAgent, callAgent, hrate, hkey, hinv]
        · intro ev hev
          simp only [List.mem_cons, List.not_mem_nil, or_false] at hev
          rcases hev with rfl | rfl | rfl <;> rfl

theorem processAgents_trace_append (env : Env) (msg conv : String) :
    ∀ (l : List AgentId) (s : LoopState),
      ∃ evs, (processAgents env msg conv l s).trace = s.trace ++ evs ∧
        ∀ ev ∈ evs, ev.agentOf ∈ l := by
  intro l
  induction l with
  | nil => intro s; exact ⟨[], by simp [processAgents], by simp⟩
  | cons a l ih =>
    intro s
    obtain ⟨evs1, h1, htag1⟩ := stepAgent_trace_append env msg conv s a
    obtain ⟨evs2, h2, htag2⟩ := ih (stepAgent env msg conv s a)
    refine ⟨evs1 ++ evs2, ?_, ?_⟩
    · show (processAgents env msg conv l (stepAgent env msg conv s a)).trace = _
      rw [h2, h1, List.append_assoc]
    · intro ev hev
      rcases List.mem_append.mp hev with h | h
      · rw [htag1 ev h]; exact List.mem_cons_self a l
      · exact List.mem_cons_of_mem _ (htag2 ev h)

theorem processAgents_responses_mono (env : Env) (msg conv : String) :
    ∀ (l : List AgentId) (s : LoopState) (o : AgentResponse),
      o ∈ s.responses → o ∈ (processAgents env msg conv l s).responses := by
  intro l
  induction l with
  | nil => intro s o h; exact h
  | cons a l ih =>
    intro s o h
    obtain ⟨o', heq, _, _⟩ := stepAgent_responses_shape env msg conv s a
    refine ih (stepAgent env msg conv s a) o ?_
    rw [heq]
    exact List.mem_append_left _ h

theorem processAgents_responses_len (env : Env) (msg conv : String) :
    ∀ (l : List AgentId) (s : LoopState),
      (processAgents env msg conv l s).responses.length =
        s.responses.length + l.length := by
  intro l
  induction l with
  | nil => intro s; simp [processAgents]
  | cons a l ih =>
    intro s
    obtain ⟨o, heq, _, _⟩ := stepAgent_responses_shape env msg conv s a
    show (processAgents env msg conv l (stepAgent env msg conv s a)).responses.length = _
    rw [ih, heq]
    simp only [List.length_append, List.length_cons, List.length_nil]
    omega

theorem processAgents_filter_block (env : Env) (msg conv : String)
    (hkey : env.hasKey = true) :
    ∀ (l : List AgentId) (s : LoopState) (a : AgentId), l.Nodup → a ∈ l →
      (∀ ev ∈ s.trace, ev.agentOf ≠ a) →
      ∃ ok succ : Bool,
        (processAgents env msg conv l s).trace.filter
            (fun ev => decide (ev.agentOf = a)) =
          [.delegationSaved a, .rateAcquired a ok] ++
          (if ok then [.invoked a] else []) ++
          (if succ then [.responseSaved a] else []) ∧
        (ok = false →
          (⟨a, errContent a, none, some "Rate limit exceeded for agent"⟩ :
            AgentResponse) ∈ (processAgents env msg conv l s).responses) := by
  intro l
  induction l with
  | nil => intro s a _ ha _; exact absurd ha (by simp)
  | cons b l ih =>
    intro s a hnd ha htr
    by_cases hab : a = b
    · subst hab
      obtain ⟨ok, succ, htrace, hresp⟩ :=
        stepAgent_trace_cases env msg conv s a hkey
      obtain ⟨evs2, h2, htag2⟩ :=
        processAgents_trace_append env msg conv l (stepAgent env msg conv s a)
      refine ⟨ok, succ, ?_, fun hok => ?_⟩
      · show ((processAgents env msg conv l
          (stepAgent env msg conv s a)).trace).filter _ = _
        rw [h2, htrace, List.filter_append, List.filter_append]
        have hs : s.trace.filter (fun ev => decide (ev.agentOf = a)) = [] := by
          rw [List.filter_eq_nil_iff]
          intro ev hev
          simpa using htr ev hev
        have h3 : evs2.filter (fun ev => decide (ev.agentOf = a)) = [] := by
          rw [List.filter_eq_nil_iff]
          intro ev hev
          have hmem := htag2 ev hev
          have hne : ev.agentOf ≠ a := fun h => by
            rw [h] at hmem
            exact (List.nodup_cons.mp hnd).1 hmem
          simpa using hne
        have hblock :
            ([Event.delegationSaved a, .rateAcquired a ok] ++
              (if ok then [Event.invoked a] else []) ++
              (if succ then [Event.responseSaved a] else [])).filter
                (fun ev => decide (ev.agentOf = a)) =
            [Event.delegationSaved a, .rateAcquired a ok] ++
              (if ok then [Event.invoked a] else []) ++
              (if succ then [Event.responseSaved a] else []) := by
          cases ok <;> cases succ <;> simp [Event.agentOf]
        rw [hs, hblock, h3]
        simp
      · refine processAgents_responses_mono env msg conv l _ _ ?_
        rw [hresp hok]
        exact List.mem_append_right _ (List.mem_singleton.mpr rfl)
    · have ha' : a ∈ l := by
        rcases List.mem_cons.mp ha with h | h
        · exact absurd h hab
        · exact h
      obtain ⟨evs1, h1, htag1⟩ := stepAgent_trace_append env msg conv s b
      refine ih (stepAgent env msg conv s b) a (List.nodup_cons.mp hnd).2 ha' ?_
      intro ev hev
      rw [h1] at hev
      rcases List.mem_append.mp hev with h | h
      · exact htr ev h
      · rw [htag1 ev h]
        exact fun hba => hab hba.symm

/-- Claim C6 counterexample: in a concrete turn, the delegation message is
recorded strictly before the rate limit is acquired — the claimed order
(rate limit first, then delegation) is false, since the rate limit is only
acquired inside `callAgent`, which runs after the delegation save. -/
theorem per_agent_step_order_cex :
    eventBefore (orchestrate envS reqS (fun _ => none)).trace
      (.rateAcquired .abacus true) (.delegationSaved .abacus) = false ∧
    eventBefore (orchestrate envS reqS (fun _ => none)).trace
      (.delegationSaved .abacus) (.rateAcquired .abacus true) = true := by
  constructor <;> decide

/-- Claim C6 amended: for each selected agent, the delegation message is recorded
first, then the rate limit is acquired, then (when admitted) the agent is
invoked, then (on success) the response message is recorded; on rate-limit
denial the agent receives the rate-limit error outcome, and every selected
agent still receives exactly one outcome. -/
theorem per_agent_step_order (env : Env) (req : OrchRequest) (rl0 : RLState)
    (a : AgentId) (hkey : env.hasKey = true)
    (ha : a ∈ (orchestrate env req rl0).agentsUsed) :
    ∃ ok succ : Bool,
      (orchestrate env req rl0).trace.filter
          (fun ev => decide (ev.agentOf = a)) =
        [.delegationSaved a, .rateAcquired a ok] ++
        (if ok then [.invoked a] else []) ++
        (if succ then [.responseSaved a] else []) ∧
      (ok = false →
        (⟨a, errContent a, none, some "Rate limit exceeded for agent"⟩ :
          AgentResponse) ∈ (orchestrate env req rl0).responses) ∧
      (orchestrate env req rl0).responses.length =
        (orchestrate env req rl0).agentsUsed.length := by
  obtain ⟨ok, succ, h1, h2⟩ := processAgents_filter_block env req.message
    ("conv_" ++ req.userId ++ "_" ++ toString env.now) hkey
    (selectAgents req.mode req.targetAgent req.message)
    ⟨[], rl0, [], [], []⟩ a (selectAgents_nodup _ _ _) ha (by simp)
  refine ⟨ok, succ, h1, h2, ?_⟩
  show (processAgents env req.message
      ("conv_" ++ req.userId ++ "_" ++ toString env.now)
      (selectAgents req.mode req.targetAgent req.message)
      ⟨[], rl0, [], [], []⟩).responses.length =
    (selectAgents req.mode req.targetAgent req.message).length
  rw [processAgents_responses_len]
  simp

/-- Claim C6 amended witness: in the concrete turn, `abacus` gets the full ordered
event block and the turn has one outcome per selected agent. -/
theorem per_agent_step_order_witness :
    (orchestrate envS reqS (fun _ => none)).trace.filter
        (fun ev => decide (ev.agentOf = AgentId.abacus)) =
      [.delegationSaved .abacus, .rateAcquired .abacus true,
       .invoked .abacus, .responseSaved .abacus] ∧
    (orchestrate envS reqS (fun _ => none)).responses.length =
      (orchestrate envS reqS (fun _ => none)).agentsUsed.length := by
  obtain ⟨ok, succ, h1, h2, h3⟩ :=
    per_agent_step_order envS reqS (fun _ => none) .abacus rfl (by decide)
  exact ⟨by decide, h3⟩

/-- Claim C10: a manual-mode dispatch without a target agent silently falls back
to the keyword classifier — the selection equals the auto-mode selection,
is never empty, and the request is not rejected. -/
theorem manual_without_target_falls_back (env : Env) (req : OrchRequest)
    (rl0 : RLState) (hmode : req.mode = .manual)
    (htarget : req.targetAgent = none) :
    (orchestrate env req rl0).agentsUsed = analyzeMessage req.message ∧
    (orchestrate env req rl0).agentsUsed =
      (orchestrate env ⟨req.message, req.userId, req.targetAgent, .auto⟩
        rl0).agentsUsed ∧
    (orchestrate env req rl0).agentsUsed ≠ [] ∧
    (orchestrate env req rl0).success = true := by
  have h1 : (orchestrate env req rl0).agentsUsed =
      analyzeMessage req.message := by
    show selectAgents req.mode req.targetAgent req.message = _
    rw [hmode, htarget]
    rfl
  refine ⟨h1, ?_, ?_, rfl⟩
  · rw [h1]
    show _ = selectAgents .auto req.targetAgent req.message
    rw [htarget]
    rfl
  · rw [h1]
    exact analyzeMessage_ne_nil _

/-- Claim C10 witness: a manual request with no target and a message matching no
keyword falls back to the classifier's `mio_dev` default and succeeds. -/
theorem manual_without_target_falls_back_witness :
    (orchestrate envS ⟨"ciao", "u1", none, .manual⟩
        (fun _ => none)).agentsUsed = analyzeMessage "ciao" ∧
    (orchestrate envS ⟨"ciao", "u1", none, .manual⟩
        (fun _ => none)).agentsUsed = [.mio_dev] ∧
    (orchestrate envS ⟨"ciao", "u1", none, .manual⟩
        (fun _ => none)).success = true := by
  have h := manual_without_target_falls_back envS
    ⟨"ciao", "u1", none, .manual⟩ (fun _ => none) rfl rfl
  exact ⟨h.1, by decide, h.2.2.2⟩

end Mihub
